import Mathlib

/-!
Verification development for the ResNet notebook (`src/ResNet/ResNet.ipynb`).

The repository defines four components: `ShortcutProjection`, `ResidualBlock`,
`BottleneckResidualBlock` and `ResNetBase`.  The tensor primitives (2-d
convolution, batch normalization, rectification, elementwise addition, mean
reduction) are supplied by the external tensor library; the spec (sections 1
and 6) scopes them out and describes only their shape behaviour, so they are
modelled here at that level: shapes follow the standard convolution
arithmetic the spec states (kernel 1, no padding: `floor((H-1)/stride)+1`),
values are a concrete executable stand-in (unit-weight convolution, identity
normalization, exact `max 0` rectification, pointwise addition, Int-division
mean).  Everything written in the repository itself (block construction,
shortcut selection, the builder loop, the forward pipeline) is translated
directly from the notebook code.
-/

/-- A 4-d tensor `(batch, channels, height, width)` with integer entries.
Modelled from the spec: tensors are owned by the external numerical library
(spec section 3); only the shape fields matter to this repository's logic. -/
structure Tensor where
  batch : Nat
  channels : Nat
  height : Nat
  width : Nat
  data : Nat → Nat → Nat → Nat → Int

/-- A 2-d tensor `(batch, channels)`, the output of the global average. -/
structure Tensor2 where
  batch : Nat
  channels : Nat
  data : Nat → Nat → Int

/-- The shape of a 4-d tensor. -/
def Tensor.shape (x : Tensor) : Nat × Nat × Nat × Nat :=
  (x.batch, x.channels, x.height, x.width)

/-- Output spatial size of a 2-d convolution along one axis.
Modelled from the spec: the external library's convolution size rule
(spec section 4.1), `floor((h + 2p - k) / s) + 1`; an input too small for
the kernel yields an empty (size 0) axis. -/
def convOutDim (h k s p : Nat) : Nat :=
  if h + 2 * p < k then 0 else (h + 2 * p - k) / s + 1

/-- Sum of `f 0, ..., f (n-1)`. -/
def isum (n : Nat) (f : Nat → Int) : Int :=
  ((List.range n).map f).foldl (fun a b => a + b) 0

/-- Read a tensor entry through zero padding of width `p` on each spatial side. -/
def tensorGetPadded (x : Tensor) (p b c i j : Nat) : Int :=
  if p ≤ i ∧ p ≤ j ∧ i - p < x.height ∧ j - p < x.width then
    x.data b c (i - p) (j - p)
  else 0

/-- Modelled from the spec: the external library's
`convolve(x, kernel_size, stride, padding, in_ch, out_ch)` primitive
(spec section 6).  Shape behaviour follows `convOutDim`; the value model is a
unit-weight convolution (weights are out of scope, spec section 1). -/
def conv2d (in_channels out_channels kernel_size stride padding : Nat)
    (x : Tensor) : Tensor :=
  { batch := x.batch
    channels := out_channels
    height := convOutDim x.height kernel_size stride padding
    width := convOutDim x.width kernel_size stride padding
    data := fun b c i j =>
      isum in_channels (fun ci =>
        isum kernel_size (fun ki =>
          isum kernel_size (fun kj =>
            tensorGetPadded x padding b ci (i * stride + ki) (j * stride + kj)))) }

/-- Modelled from the spec: the external library's `normalize(x, channels)`
primitive (spec section 6); it preserves the tensor shape, and its value
behaviour is out of scope (modelled as the identity on values). -/
def batchNorm (channels : Nat) (x : Tensor) : Tensor :=
  x

/-- Modelled from the spec: the external library's `rectify(x)` primitive,
elementwise `max(0, v)` (spec section 4.2). -/
def relu (x : Tensor) : Tensor :=
  { x with data := fun b c i j => max 0 (x.data b c i j) }

/-- Modelled from the spec: the external library's elementwise `add(x, y)`
primitive (spec section 6). -/
def Tensor.add (x y : Tensor) : Tensor :=
  { x with data := fun b c i j => x.data b c i j + y.data b c i j }

/-- `x.view(B, C, -1)` followed by `mean(dim=-1)`: flatten the spatial axes
and reduce them by arithmetic mean (Int division), giving a `(B, C)` tensor. -/
def globalMean (x : Tensor) : Tensor2 :=
  { batch := x.batch
    channels := x.channels
    data := fun b c =>
      (isum (x.height * x.width)
        (fun k => x.data b c (k / x.width) (k % x.width))) /
        (x.height * x.width : Int) }

/-- `ShortcutProjection`: a 1x1 strided convolution followed by batch
normalization, used when the shortcut cannot be the identity. -/
structure ShortcutProjection where
  in_channels : Nat
  out_channels : Nat
  stride : Nat
deriving DecidableEq

/-- `ShortcutProjection.forward`: `self.bn(self.conv(x))` with
`nn.Conv2d(in_channels, out_channels, kernel_size=1, stride=stride)`. -/
def ShortcutProjection.forward (p : ShortcutProjection) (x : Tensor) : Tensor :=
  batchNorm p.out_channels (conv2d p.in_channels p.out_channels 1 p.stride 0 x)

/-- A block's shortcut branch: `nn.Identity()` or a `ShortcutProjection`. -/
inductive Shortcut where
  | identity : Shortcut
  | projection : ShortcutProjection → Shortcut
deriving DecidableEq

/-- Apply the shortcut branch: `nn.Identity` returns its input unchanged,
a projection applies `ShortcutProjection.forward`. -/
def Shortcut.forward : Shortcut → Tensor → Tensor
  | Shortcut.identity, x => x
  | Shortcut.projection p, x => p.forward x

/-- Whether the shortcut branch is a `ShortcutProjection`. -/
def Shortcut.isProjection : Shortcut → Bool
  | Shortcut.identity => false
  | Shortcut.projection _ => true

/-- `ResidualBlock`: configuration recorded by `__init__`
(`in_channels`, `out_channels`, `stride`) plus the chosen shortcut. -/
structure ResidualBlock where
  in_channels : Nat
  out_channels : Nat
  stride : Nat
  shortcut : Shortcut
deriving DecidableEq

/-- `ResidualBlock.__init__`: the shortcut is a `ShortcutProjection` iff
`stride != 1 or in_channels != out_channels`, else `nn.Identity()`. -/
def ResidualBlock.init (in_channels out_channels stride : Nat) : ResidualBlock :=
  { in_channels := in_channels
    out_channels := out_channels
    stride := stride
    shortcut :=
      if stride ≠ 1 ∨ in_channels ≠ out_channels then
        Shortcut.projection ⟨in_channels, out_channels, stride⟩
      else Shortcut.identity }

/-- `ResidualBlock.res`: the `nn.Sequential` transformed path, namely
conv(3, stride, pad 1, in→out), bn, relu, conv(3, 1, pad 1, out→out), bn. -/
def ResidualBlock.res (b : ResidualBlock) (x : Tensor) : Tensor :=
  batchNorm b.out_channels
    (conv2d b.out_channels b.out_channels 3 1 1
      (relu (batchNorm b.out_channels
        (conv2d b.in_channels b.out_channels 3 b.stride 1 x))))

/-- `ResidualBlock.forward`: `self.act(self.res(x) + self.shortcut(x))`. -/
def ResidualBlock.forward (b : ResidualBlock) (x : Tensor) : Tensor :=
  relu (Tensor.add (b.res x) (b.shortcut.forward x))

/-- `BottleneckResidualBlock`: configuration recorded by `__init__` plus the
chosen shortcut. -/
structure BottleneckResidualBlock where
  in_channels : Nat
  bottleneck_channels : Nat
  out_channels : Nat
  stride : Nat
  shortcut : Shortcut
deriving DecidableEq

/-- `BottleneckResidualBlock.__init__`: same shortcut rule as
`ResidualBlock`, keyed on `(in_channels, out_channels, stride)` only. -/
def BottleneckResidualBlock.init
    (in_channels bottleneck_channels out_channels stride : Nat) :
    BottleneckResidualBlock :=
  { in_channels := in_channels
    bottleneck_channels := bottleneck_channels
    out_channels := out_channels
    stride := stride
    shortcut :=
      if stride ≠ 1 ∨ in_channels ≠ out_channels then
        Shortcut.projection ⟨in_channels, out_channels, stride⟩
      else Shortcut.identity }

/-- `BottleneckResidualBlock.res`: the `nn.Sequential` transformed path:
conv(1, 1, in→bottleneck), bn, relu, conv(3, stride, pad 1,
bottleneck→bottleneck), bn, relu, conv(1, 1, bottleneck→out), bn. -/
def BottleneckResidualBlock.res (b : BottleneckResidualBlock) (x : Tensor) : Tensor :=
  batchNorm b.out_channels
    (conv2d b.bottleneck_channels b.out_channels 1 1 0
      (relu (batchNorm b.bottleneck_channels
        (conv2d b.bottleneck_channels b.bottleneck_channels 3 b.stride 1
          (relu (batchNorm b.bottleneck_channels
            (conv2d b.in_channels b.bottleneck_channels 1 1 0 x)))))))

/-- `BottleneckResidualBlock.forward`: `self.act(self.res(x) + self.shortcut(x))`. -/
def BottleneckResidualBlock.forward (b : BottleneckResidualBlock) (x : Tensor) : Tensor :=
  relu (Tensor.add (b.res x) (b.shortcut.forward x))

/-- A block of the assembled network: either variant. -/
inductive Block where
  | residual : ResidualBlock → Block
  | bottleneck : BottleneckResidualBlock → Block
deriving DecidableEq

/-- Apply a block. -/
def Block.forward : Block → Tensor → Tensor
  | Block.residual b, x => b.forward x
  | Block.bottleneck b, x => b.forward x

/-- The stride a block was constructed with. -/
def Block.strideOf : Block → Nat
  | Block.residual b => b.stride
  | Block.bottleneck b => b.stride

/-- The input channel count a block was constructed with. -/
def Block.inChannels : Block → Nat
  | Block.residual b => b.in_channels
  | Block.bottleneck b => b.in_channels

/-- The output channel count a block was constructed with. -/
def Block.outChannels : Block → Nat
  | Block.residual b => b.out_channels
  | Block.bottleneck b => b.out_channels

/-- Whether a block's shortcut is a `ShortcutProjection`. -/
def Block.usesProjection : Block → Bool
  | Block.residual b => b.shortcut.isProjection
  | Block.bottleneck b => b.shortcut.isProjection

/-- The first block of a stage in `ResNetBase.__init__`:
`ResidualBlock(prev_channels, channels, stride)` when `bottlenecks is None`,
else `BottleneckResidualBlock(prev_channels, bottlenecks[i], channels, stride)`.
`bottlenecks` here carries the still-unconsumed tail, so `bottlenecks[i]`
is its head. -/
def mkStageFirst (bottlenecks : Option (List Nat)) (prev ch stride : Nat) : Block :=
  match bottlenecks with
  | none => Block.residual (ResidualBlock.init prev ch stride)
  | some bs => Block.bottleneck (BottleneckResidualBlock.init prev (bs.headD 0) ch stride)

/-- A non-first block of a stage in `ResNetBase.__init__`: channels→channels
with stride 1, variant chosen by `bottlenecks`. -/
def mkStageRest (bottlenecks : Option (List Nat)) (ch : Nat) : Block :=
  match bottlenecks with
  | none => Block.residual (ResidualBlock.init ch ch 1)
  | some bs => Block.bottleneck (BottleneckResidualBlock.init ch (bs.headD 0) ch 1)

/-- The block-construction loop of `ResNetBase.__init__`: iterate over the
paired `(n_blocks, n_channels)` lists; at each stage
`stride = 2 if len(blocks) == 0 else 1`, append the stage's first block
(`prev_channels → channels`), then `n_blocks[i] - 1` stride-1
channels→channels blocks; `prev_channels` becomes `channels`; the per-stage
bottleneck list advances by one entry. -/
def buildLoop : List Nat → List Nat → Option (List Nat) → Nat → List Block → List Block
  | nb :: nbs, ch :: chs, bottlenecks, prev, acc =>
    let stride := if acc.isEmpty then 2 else 1
    let acc2 := acc ++ [mkStageFirst bottlenecks prev ch stride]
    let acc3 := acc2 ++ List.replicate (nb - 1) (mkStageRest bottlenecks ch)
    buildLoop nbs chs (Option.map List.tail bottlenecks) ch acc3
  | _, _, _, _, acc => acc

/-- Build-time failures of `ResNetBase.__init__`: the two `assert`
statements on the specification lengths (the spec's `ConfigurationError`),
and the out-of-range access `n_channels[0]` on an empty channel list. -/
inductive BuildError where
  | configurationError : BuildError
  | indexError : BuildError
deriving DecidableEq

/-- The length condition of the second assert:
`bottlenecks is None or len(bottlenecks) == len(n_channels)`. -/
def bottlenecksLenOk : Option (List Nat) → List Nat → Prop
  | none, _ => True
  | some bs, chs => bs.length = chs.length

instance (bottlenecks : Option (List Nat)) (chs : List Nat) :
    Decidable (bottlenecksLenOk bottlenecks chs) := by
  cases bottlenecks with
  | none => exact isTrue trivial
  | some bs => exact inferInstanceAs (Decidable (bs.length = chs.length))

/-- The assembled network: the stem configuration
(`nn.Conv2d(img_channels, n_channels[0], first_kernel_size, stride=2,
padding=first_kernel_size//2)` plus `nn.BatchNorm2d(n_channels[0])`) and the
ordered block list. -/
structure ResNetBase where
  img_channels : Nat
  first_kernel_size : Nat
  stem_channels : Nat
  blocks : List Block
deriving DecidableEq

/-- `ResNetBase.__init__`: assert the two length conditions (their failure is
the spec's `ConfigurationError`), read `n_channels[0]` (IndexError on an
empty list), then run the block-construction loop with
`prev_channels = n_channels[0]` and an empty block list. -/
def ResNetBase.init (n_blocks n_channels : List Nat)
    (bottlenecks : Option (List Nat)) (img_channels first_kernel_size : Nat) :
    Except BuildError ResNetBase :=
  if n_blocks.length = n_channels.length then
    if bottlenecksLenOk bottlenecks n_channels then
      match n_channels with
      | [] => Except.error BuildError.indexError
      | c0 :: _ =>
        Except.ok
          { img_channels := img_channels
            first_kernel_size := first_kernel_size
            stem_channels := c0
            blocks := buildLoop n_blocks n_channels bottlenecks c0 [] }
    else Except.error BuildError.configurationError
  else Except.error BuildError.configurationError

/-- `ResNetBase.forward`: stem (`self.bn(self.conv(x))`), the sequential
block pipeline, then flatten the spatial axes and reduce by mean. -/
def ResNetBase.forward (net : ResNetBase) (x : Tensor) : Tensor2 :=
  let x1 := batchNorm net.stem_channels
    (conv2d net.img_channels net.stem_channels net.first_kernel_size 2
      (net.first_kernel_size / 2) x)
  let x2 := net.blocks.foldl (fun t b => Block.forward b t) x1
  globalMean x2

/-- The blocks produced by `buildLoop` once the accumulator is nonempty:
every stage's first block then uses stride 1 (closed form of the loop's
tail, used to reason about `buildLoop` by recursion). -/
def restLoop : List Nat → List Nat → Option (List Nat) → Nat → List Block
  | nb :: nbs, ch :: chs, bottlenecks, prev =>
    mkStageFirst bottlenecks prev ch 1 ::
      (List.replicate (nb - 1) (mkStageRest bottlenecks ch) ++
        restLoop nbs chs (Option.map List.tail bottlenecks) ch)
  | _, _, _, _ => []

/-- Written from claim C3's words: stage `i` contributes one first block
`prev_channels → channel_widths[i]` followed by `block_counts[i] - 1`
blocks with `in_channels = out_channels = channel_widths[i]`, in stage
order; this lists the `(in, out)` channel pair of every block. -/
def stageChannelPairs : Nat → List Nat → List Nat → List (Nat × Nat)
  | prev, nb :: nbs, ch :: chs =>
    ((prev, ch) :: List.replicate (nb - 1) (ch, ch)) ++ stageChannelPairs ch nbs chs
  | _, _, _ => []

/-- Written from claim C10's words, for the stages after the first: the
first block of such a stage carries a `ShortcutProjection` exactly when the
channel width changes from the previous stage, and no other block of the
stage carries one. -/
def projTagsRest : Nat → List Nat → List Nat → List Bool
  | prev, nb :: nbs, ch :: chs =>
    (decide (prev ≠ ch) :: List.replicate (nb - 1) false) ++ projTagsRest ch nbs chs
  | _, _, _ => []

/-- Written from claim C10's words: one flag per block of the assembled
network, true iff that block's shortcut is a `ShortcutProjection` — true at
the first block of the first stage, true at a later stage's first block
exactly when the channel width changes, false everywhere else. -/
def projTagsSpec : List Nat → List Nat → List Bool
  | nb :: nbs, ch :: chs =>
    (true :: List.replicate (nb - 1) false) ++ projTagsRest ch nbs chs
  | _, _ => []

/-- A concrete network used to instantiate the claims:
`ResNetBase([2, 2], [4, 8])`. -/
def sampleNet : ResNetBase :=
  { img_channels := 3
    first_kernel_size := 7
    stem_channels := 4
    blocks := buildLoop [2, 2] [4, 8] none 4 [] }

/-- A concrete network with a zero block count: `ResNetBase([0, 2], [4, 4])`. -/
def sampleNetZero : ResNetBase :=
  { img_channels := 3
    first_kernel_size := 7
    stem_channels := 4
    blocks := buildLoop [0, 2] [4, 4] none 4 [] }

/-- A concrete network with an unchanged channel width across the stage
boundary: `ResNetBase([1, 1], [4, 4])`. -/
def sampleNetEq : ResNetBase :=
  { img_channels := 3
    first_kernel_size := 7
    stem_channels := 4
    blocks := buildLoop [1, 1] [4, 4] none 4 [] }

/-- A concrete input tensor of shape `(1, 4, 6, 5)` with constant entries. -/
def sampleTensor : Tensor :=
  { batch := 1, channels := 4, height := 6, width := 5
    data := fun _ _ _ _ => 3 }

/-- A concrete input image tensor of shape `(1, 3, 20, 17)`. -/
def sampleImage : Tensor :=
  { batch := 1, channels := 3, height := 20, width := 17
    data := fun _ _ _ _ => 2 }

/-! ## Helper lemmas about the block constructors -/

theorem strideOf_mkStageFirst (botts : Option (List Nat)) (prev ch s : Nat) :
    (mkStageFirst botts prev ch s).strideOf = s := by
  cases botts <;> rfl

theorem strideOf_mkStageRest (botts : Option (List Nat)) (ch : Nat) :
    (mkStageRest botts ch).strideOf = 1 := by
  cases botts <;> rfl

theorem inChannels_mkStageFirst (botts : Option (List Nat)) (prev ch s : Nat) :
    (mkStageFirst botts prev ch s).inChannels = prev := by
  cases botts <;> rfl

theorem outChannels_mkStageFirst (botts : Option (List Nat)) (prev ch s : Nat) :
    (mkStageFirst botts prev ch s).outChannels = ch := by
  cases botts <;> rfl

theorem inChannels_mkStageRest (botts : Option (List Nat)) (ch : Nat) :
    (mkStageRest botts ch).inChannels = ch := by
  cases botts <;> rfl

theorem outChannels_mkStageRest (botts : Option (List Nat)) (ch : Nat) :
    (mkStageRest botts ch).outChannels = ch := by
  cases botts <;> rfl

theorem usesProjection_mkStageFirst_two (botts : Option (List Nat)) (prev ch : Nat) :
    (mkStageFirst botts prev ch 2).usesProjection = true := by
  cases botts <;> rfl

theorem usesProjection_mkStageFirst_one (botts : Option (List Nat)) (prev ch : Nat) :
    (mkStageFirst botts prev ch 1).usesProjection = decide (prev ≠ ch) := by
  by_cases h : prev = ch <;>
    cases botts <;>
      simp [mkStageFirst, ResidualBlock.init, BottleneckResidualBlock.init,
        Block.usesProjection, Shortcut.isProjection, h]

theorem usesProjection_mkStageRest (botts : Option (List Nat)) (ch : Nat) :
    (mkStageRest botts ch).usesProjection = false := by
  cases botts <;>
    simp [mkStageRest, ResidualBlock.init, BottleneckResidualBlock.init,
      Block.usesProjection, Shortcut.isProjection]

/-! ## The builder loop in closed form -/

theorem buildLoop_append :
    ∀ (nbs chs : List Nat) (botts : Option (List Nat)) (prev : Nat)
      (acc : List Block), acc ≠ [] →
      buildLoop nbs chs botts prev acc = acc ++ restLoop nbs chs botts prev
  | [], chs, botts, prev, acc, _ => by
    cases chs <;> simp [buildLoop, restLoop]
  | _ :: _, [], botts, prev, acc, _ => by
    simp [buildLoop, restLoop]
  | nb :: nbs, ch :: chs, botts, prev, acc, h => by
    have hne : acc.isEmpty = false := by
      cases acc with
      | nil => exact absurd rfl h
      | cons a t => rfl
    rw [buildLoop, restLoop]
    simp only [hne, Bool.false_eq_true, if_false]
    rw [buildLoop_append nbs chs (Option.map List.tail botts) ch _ (by simp)]
    simp

theorem buildLoop_top (nb : Nat) (nbs : List Nat) (ch : Nat) (chs : List Nat)
    (botts : Option (List Nat)) (prev : Nat) :
    buildLoop (nb :: nbs) (ch :: chs) botts prev []
      = mkStageFirst botts prev ch 2 ::
          (List.replicate (nb - 1) (mkStageRest botts ch) ++
            restLoop nbs chs (Option.map List.tail botts) ch) := by
  rw [buildLoop]
  simp only [List.isEmpty_nil, if_true, List.nil_append]
  rw [buildLoop_append nbs chs (Option.map List.tail botts) ch _ (by simp)]
  simp

/-! ## Properties of the loop tail -/

theorem restLoop_stride_one :
    ∀ (nbs chs : List Nat) (botts : Option (List Nat)) (prev : Nat)
      (b : Block), b ∈ restLoop nbs chs botts prev → b.strideOf = 1
  | [], chs, botts, prev, b, h => by
    cases chs <;> simp [restLoop] at h
  | _ :: _, [], botts, prev, b, h => by
    simp [restLoop] at h
  | nb :: nbs, ch :: chs, botts, prev, b, h => by
    rw [restLoop] at h
    rcases List.mem_cons.mp h with h1 | h2
    · rw [h1, strideOf_mkStageFirst]
    · rcases List.mem_append.mp h2 with h3 | h4
      · rw [List.eq_of_mem_replicate h3, strideOf_mkStageRest]
      · exact restLoop_stride_one nbs chs (Option.map List.tail botts) ch b h4

theorem restLoop_chanPairs :
    ∀ (nbs chs : List Nat) (botts : Option (List Nat)) (prev : Nat),
      (restLoop nbs chs botts prev).map (fun b => (b.inChannels, b.outChannels))
        = stageChannelPairs prev nbs chs
  | [], chs, botts, prev => by
    cases chs <;> simp [restLoop, stageChannelPairs]
  | _ :: _, [], botts, prev => by
    simp [restLoop, stageChannelPairs]
  | nb :: nbs, ch :: chs, botts, prev => by
    rw [restLoop, stageChannelPairs]
    simp only [List.map_cons, List.map_append, List.map_replicate,
      inChannels_mkStageFirst, outChannels_mkStageFirst,
      inChannels_mkStageRest, outChannels_mkStageRest,
      restLoop_chanPairs nbs chs (Option.map List.tail botts) ch]
    simp

theorem restLoop_projTags :
    ∀ (nbs chs : List Nat) (botts : Option (List Nat)) (prev : Nat),
      (restLoop nbs chs botts prev).map Block.usesProjection
        = projTagsRest prev nbs chs
  | [], chs, botts, prev => by
    cases chs <;> simp [restLoop, projTagsRest]
  | _ :: _, [], botts, prev => by
    simp [restLoop, projTagsRest]
  | nb :: nbs, ch :: chs, botts, prev => by
    rw [restLoop, projTagsRest]
    simp only [List.map_cons, List.map_append, List.map_replicate,
      usesProjection_mkStageFirst_one, usesProjection_mkStageRest,
      restLoop_projTags nbs chs (Option.map List.tail botts) ch]
    simp

theorem stageChannelPairs_length_max :
    ∀ (nbs chs : List Nat) (prev : Nat), nbs.length = chs.length →
      (stageChannelPairs prev nbs chs).length
        = (nbs.map (fun n => max 1 n)).sum
  | [], chs, prev, h => by
    cases chs with
    | nil => simp [stageChannelPairs]
    | cons c cs => simp at h
  | nb :: nbs, chs, prev, h => by
    cases chs with
    | nil => simp at h
    | cons ch chs =>
      rw [stageChannelPairs]
      simp only [List.length_append, List.length_cons, List.length_replicate,
        List.map_cons, List.sum_cons]
      rw [stageChannelPairs_length_max nbs chs ch (by simpa using h)]
      omega

theorem map_max_one_sum (nbs : List Nat) (h : ∀ n ∈ nbs, 1 ≤ n) :
    (nbs.map (fun n => max 1 n)).sum = nbs.sum := by
  induction nbs with
  | nil => rfl
  | cons n ns ih =>
    simp only [List.map_cons, List.sum_cons]
    rw [ih (fun m hm => h m (List.mem_cons_of_mem n hm))]
    have h1 : 1 ≤ n := h n (List.mem_cons_self n ns)
    omega

/-! ## Shape facts about a single block's forward pass -/

theorem Block.forward_channels (b : Block) (x : Tensor) :
    (b.forward x).channels = b.outChannels := by
  cases b <;> rfl

theorem Block.forward_batch (b : Block) (x : Tensor) :
    (b.forward x).batch = x.batch := by
  cases b <;> rfl

theorem foldl_forward_batch (bs : List Block) (x : Tensor) :
    (bs.foldl (fun t b => Block.forward b t) x).batch = x.batch := by
  induction bs generalizing x with
  | nil => rfl
  | cons b bs ih => rw [List.foldl_cons, ih, Block.forward_batch]

theorem foldl_forward_channels_const (bs : List Block) (c : Nat) :
    ∀ (x : Tensor), x.channels = c → (∀ b ∈ bs, b.outChannels = c) →
      (bs.foldl (fun t b => Block.forward b t) x).channels = c := by
  induction bs with
  | nil => exact fun x hx _ => hx
  | cons b bs ih =>
    intro x hx hbs
    rw [List.foldl_cons]
    refine ih _ ?_ (fun b2 hb2 => hbs b2 (List.mem_cons_of_mem b hb2))
    rw [Block.forward_channels]
    exact hbs b (List.mem_cons_self b bs)

theorem foldl_restLoop_channels :
    ∀ (nbs chs : List Nat) (botts : Option (List Nat)) (prev : Nat)
      (x : Tensor), nbs.length = chs.length →
      ((restLoop nbs chs botts prev).foldl (fun t b => Block.forward b t) x).channels
        = chs.getLastD x.channels
  | [], chs, botts, prev, x, h => by
    cases chs with
    | nil => simp [restLoop]
    | cons c cs => simp at h
  | nb :: nbs, chs, botts, prev, x, h => by
    cases chs with
    | nil => simp at h
    | cons ch chs =>
      rw [restLoop]
      rw [List.foldl_cons, List.foldl_append]
      rw [foldl_restLoop_channels nbs chs (Option.map List.tail botts) ch _
        (by simpa using h)]
      have hmid :
          ((List.replicate (nb - 1) (mkStageRest botts ch)).foldl
            (fun t b => Block.forward b t)
            (Block.forward (mkStageFirst botts prev ch 1) x)).channels = ch := by
        refine foldl_forward_channels_const _ ch _ ?_ ?_
        · rw [Block.forward_channels, outChannels_mkStageFirst]
        · intro b2 hb2
          rw [List.eq_of_mem_replicate hb2, outChannels_mkStageRest]
      rw [hmid, List.getLastD_cons]

/-! ## Extracting the structure of a successfully built network -/

theorem init_ok_blocks (nbs chs : List Nat) (botts : Option (List Nat))
    (ic ks : Nat) (net : ResNetBase)
    (h : ResNetBase.init nbs chs botts ic ks = Except.ok net) :
    ∃ c0 chs0 nb0 nbs0, chs = c0 :: chs0 ∧ nbs = nb0 :: nbs0 ∧
      nbs0.length = chs0.length ∧
      net = { img_channels := ic, first_kernel_size := ks, stem_channels := c0,
              blocks := buildLoop nbs chs botts c0 [] } := by
  by_cases hlen : nbs.length = chs.length
  · by_cases hbot : bottlenecksLenOk botts chs
    · rw [ResNetBase.init.eq_def, if_pos hlen, if_pos hbot] at h
      cases chs with
      | nil => exact absurd h (by simp)
      | cons c0 chs0 =>
        cases nbs with
        | nil => simp at hlen
        | cons nb0 nbs0 =>
          simp only [Except.ok.injEq] at h
          exact ⟨c0, chs0, nb0, nbs0, rfl, rfl, by simpa using hlen, h.symm⟩
    · rw [ResNetBase.init.eq_def, if_pos hlen, if_neg hbot] at h
      exact absurd h (by simp)
  · rw [ResNetBase.init.eq_def, if_neg hlen] at h
    exact absurd h (by simp)

/-! ## Convolution size arithmetic -/

theorem convOutDim_three_one (h : Nat) : convOutDim h 3 1 1 = h := by
  cases h with
  | zero => rfl
  | succ n =>
    rw [convOutDim, if_neg (by omega)]
    have e : n + 1 + 2 * 1 - 3 = n := by omega
    rw [e, Nat.div_one]

theorem convOutDim_one_eq_three (h s : Nat) :
    convOutDim h 1 s 0 = convOutDim h 3 s 1 := by
  cases h with
  | zero => rfl
  | succ n =>
    rw [convOutDim, convOutDim, if_neg (by omega), if_neg (by omega)]
    have e1 : n + 1 + 2 * 0 - 1 = n := by omega
    have e2 : n + 1 + 2 * 1 - 3 = n := by omega
    rw [e1, e2]

theorem convOutDim_one_one (h : Nat) : convOutDim h 1 1 0 = h := by
  cases h with
  | zero => rfl
  | succ n =>
    rw [convOutDim, if_neg (by omega)]
    have e : n + 1 + 2 * 0 - 1 = n := by omega
    rw [e, Nat.div_one]

theorem convOutDim_one (h s : Nat) (hh : 1 ≤ h) :
    convOutDim h 1 s 0 = (h - 1) / s + 1 := by
  rw [convOutDim, if_neg (by omega)]
  have e : h + 2 * 0 - 1 = h - 1 := by omega
  rw [e]

/-! ## Shape agreement of the two paths of a block -/

theorem proj_shape_eq_res (inC outC s : Nat) (x : Tensor) :
    (ShortcutProjection.forward ⟨inC, outC, s⟩ x).shape
      = ((ResidualBlock.init inC outC s).res x).shape := by
  show (x.batch, outC, convOutDim x.height 1 s 0, convOutDim x.width 1 s 0)
      = (x.batch, outC, convOutDim (convOutDim x.height 3 s 1) 3 1 1,
          convOutDim (convOutDim x.width 3 s 1) 3 1 1)
  rw [convOutDim_three_one, convOutDim_three_one,
    convOutDim_one_eq_three, convOutDim_one_eq_three]

theorem proj_shape_eq_bottleneck_res (inC botC outC s : Nat) (x : Tensor) :
    (ShortcutProjection.forward ⟨inC, outC, s⟩ x).shape
      = ((BottleneckResidualBlock.init inC botC outC s).res x).shape := by
  show (x.batch, outC, convOutDim x.height 1 s 0, convOutDim x.width 1 s 0)
      = (x.batch, outC,
          convOutDim (convOutDim (convOutDim x.height 1 1 0) 3 s 1) 1 1 0,
          convOutDim (convOutDim (convOutDim x.width 1 1 0) 3 s 1) 1 1 0)
  simp only [convOutDim_one_one, convOutDim_one_eq_three, convOutDim_three_one]

/-! ## The claims -/

/-- C1: in every network assembled by `ResNetBase.__init__` (any
configuration accepted by the asserts), stride 2 is used by exactly one
block — the first block constructed overall; every other block, including
the first block of every stage `i > 0`, uses stride 1. -/
theorem C1_stride_only_first (nbs chs : List Nat) (botts : Option (List Nat))
    (ic ks : Nat) (net : ResNetBase)
    (h : ResNetBase.init nbs chs botts ic ks = Except.ok net) :
    ∃ b rest, net.blocks = b :: rest ∧ b.strideOf = 2 ∧
      ∀ b2 ∈ rest, b2.strideOf = 1 := by
  obtain ⟨c0, chs0, nb0, nbs0, hc, hn, hlen, hnet⟩ :=
    init_ok_blocks nbs chs botts ic ks net h
  subst hc hn hnet
  refine ⟨mkStageFirst botts c0 c0 2,
    List.replicate (nb0 - 1) (mkStageRest botts c0) ++
      restLoop nbs0 chs0 (Option.map List.tail botts) c0,
    buildLoop_top nb0 nbs0 c0 chs0 botts c0,
    strideOf_mkStageFirst botts c0 c0 2, ?_⟩
  intro b2 hb2
  rcases List.mem_append.mp hb2 with h3 | h4
  · rw [List.eq_of_mem_replicate h3, strideOf_mkStageRest]
  · exact restLoop_stride_one nbs0 chs0 (Option.map List.tail botts) c0 b2 h4

/-- C1 witness at `ResNetBase([2, 2], [4, 8])`. -/
theorem C1_stride_only_first_witness :
    (ResNetBase.init [2, 2] [4, 8] none 3 7 = Except.ok sampleNet) ∧
    (∃ b rest, sampleNet.blocks = b :: rest ∧ b.strideOf = 2 ∧
      ∀ b2 ∈ rest, b2.strideOf = 1) :=
  ⟨rfl, C1_stride_only_first [2, 2] [4, 8] none 3 7 sampleNet rfl⟩

/-- C2: when a block's construction parameters force a projection shortcut
(`in_channels ≠ out_channels` or `stride ≠ 1`), the shortcut path's output
shape equals the transformed path's output shape, for every input tensor
and for both block variants, so the addition in `forward` is well-defined. -/
theorem C2_shortcut_shape_matches (inC botC outC s : Nat) (x : Tensor)
    (h : inC ≠ outC ∨ s ≠ 1) :
    (((ResidualBlock.init inC outC s).shortcut.forward x).shape
        = ((ResidualBlock.init inC outC s).res x).shape) ∧
    (((BottleneckResidualBlock.init inC botC outC s).shortcut.forward x).shape
        = ((BottleneckResidualBlock.init inC botC outC s).res x).shape) := by
  have hcond : s ≠ 1 ∨ inC ≠ outC := h.symm
  constructor
  · have hs : (ResidualBlock.init inC outC s).shortcut
        = Shortcut.projection ⟨inC, outC, s⟩ := by
      show (if s ≠ 1 ∨ inC ≠ outC then Shortcut.projection ⟨inC, outC, s⟩
          else Shortcut.identity) = Shortcut.projection ⟨inC, outC, s⟩
      rw [if_pos hcond]
    rw [hs]
    exact proj_shape_eq_res inC outC s x
  · have hs : (BottleneckResidualBlock.init inC botC outC s).shortcut
        = Shortcut.projection ⟨inC, outC, s⟩ := by
      show (if s ≠ 1 ∨ inC ≠ outC then Shortcut.projection ⟨inC, outC, s⟩
          else Shortcut.identity) = Shortcut.projection ⟨inC, outC, s⟩
      rw [if_pos hcond]
    rw [hs]
    exact proj_shape_eq_bottleneck_res inC botC outC s x

/-- C2 witness at a channel-changing block `4 → 8`, stride 1, on a concrete
`(1, 4, 6, 5)` input. -/
theorem C2_shortcut_shape_matches_witness :
    (((ResidualBlock.init 4 8 1).shortcut.forward sampleTensor).shape
        = ((ResidualBlock.init 4 8 1).res sampleTensor).shape) ∧
    (((BottleneckResidualBlock.init 4 2 8 1).shortcut.forward sampleTensor).shape
        = ((BottleneckResidualBlock.init 4 2 8 1).res sampleTensor).shape) :=
  C2_shortcut_shape_matches 4 2 8 1 sampleTensor (Or.inl (by decide))

/-- C3 counterexample: the claim quantifies over every pair of equal-length
lists of positive integers, which includes the empty pair; there
`ResNetBase.__init__` does not succeed — `n_channels[0]` is read before any
block is built and fails on the empty channel list. -/
theorem C3_empty_fails :
    ResNetBase.init [] [] none 3 7 = Except.error BuildError.indexError := by
  rfl

/-- C3 (amended: the lists must also be nonempty): for equal-length nonempty
lists of positive integers, construction succeeds, the block list holds
`sum block_counts` blocks, and stage `i` contributes one
`prev_channels → channel_widths[i]` block followed by `block_counts[i] - 1`
blocks with `in_channels = out_channels = channel_widths[i]`, in stage
order. -/
theorem C3_build_structure (nbs chs : List Nat) (botts : Option (List Nat))
    (ic ks c0 : Nat) (chs0 : List Nat)
    (hc : chs = c0 :: chs0)
    (hlen : nbs.length = chs.length)
    (hbot : bottlenecksLenOk botts chs)
    (hpos : ∀ n ∈ nbs, 1 ≤ n) :
    ∃ net, ResNetBase.init nbs chs botts ic ks = Except.ok net ∧
      net.blocks.length = nbs.sum ∧
      net.blocks.map (fun b => (b.inChannels, b.outChannels))
        = stageChannelPairs c0 nbs chs := by
  subst hc
  cases nbs with
  | nil => simp at hlen
  | cons nb0 nbs0 =>
    have hpairs : (buildLoop (nb0 :: nbs0) (c0 :: chs0) botts c0 []).map
        (fun b => (b.inChannels, b.outChannels))
        = stageChannelPairs c0 (nb0 :: nbs0) (c0 :: chs0) := by
      rw [buildLoop_top, stageChannelPairs]
      simp only [List.map_cons, List.map_append, List.map_replicate,
        inChannels_mkStageFirst, outChannels_mkStageFirst,
        inChannels_mkStageRest, outChannels_mkStageRest, restLoop_chanPairs]
      simp
    refine ⟨{ img_channels := ic, first_kernel_size := ks, stem_channels := c0,
              blocks := buildLoop (nb0 :: nbs0) (c0 :: chs0) botts c0 [] },
      ?_, ?_, hpairs⟩
    · rw [ResNetBase.init.eq_def, if_pos hlen, if_pos hbot]
    · have h1 : (buildLoop (nb0 :: nbs0) (c0 :: chs0) botts c0 []).length
          = ((buildLoop (nb0 :: nbs0) (c0 :: chs0) botts c0 []).map
              (fun b => (b.inChannels, b.outChannels))).length :=
        (List.length_map _ _).symm
      rw [h1, hpairs, stageChannelPairs_length_max _ _ _ hlen,
        map_max_one_sum _ hpos]

/-- C3 witness at `ResNetBase([2, 2], [4, 8])`. -/
theorem C3_build_structure_witness :
    ∃ net, ResNetBase.init [2, 2] [4, 8] none 3 7 = Except.ok net ∧
      net.blocks.length = ([2, 2] : List Nat).sum ∧
      net.blocks.map (fun b => (b.inChannels, b.outChannels))
        = stageChannelPairs 4 [2, 2] [4, 8] :=
  C3_build_structure [2, 2] [4, 8] none 3 7 4 [8] rfl (by decide) trivial
    (by decide)

/-- C4: mismatched specification lengths — block counts versus channel
widths, or a supplied bottleneck list versus channel widths — make
`ResNetBase.__init__` fail with the configuration error (the failing
assert), before any network is produced. -/
theorem C4_mismatch_config_error (nbs chs : List Nat)
    (botts : Option (List Nat)) (ic ks : Nat)
    (h : nbs.length ≠ chs.length ∨
      ∃ bs, botts = some bs ∧ bs.length ≠ chs.length) :
    ResNetBase.init nbs chs botts ic ks
      = Except.error BuildError.configurationError := by
  rcases h with h1 | ⟨bs, hb, h2⟩
  · rw [ResNetBase.init.eq_def, if_neg h1]
  · subst hb
    by_cases h1 : nbs.length = chs.length
    · have hnb : ¬ bottlenecksLenOk (some bs) chs := h2
      rw [ResNetBase.init.eq_def, if_pos h1, if_neg hnb]
    · rw [ResNetBase.init.eq_def, if_neg h1]

/-- C4 witness: the spec's example `build([2, 2], [64, 128, 256])`, and a
bottleneck list of the wrong length. -/
theorem C4_mismatch_config_error_witness :
    (ResNetBase.init [2, 2] [64, 128, 256] none 3 7
      = Except.error BuildError.configurationError) ∧
    (ResNetBase.init [2, 2] [64, 128] (some [64]) 3 7
      = Except.error BuildError.configurationError) :=
  ⟨C4_mismatch_config_error [2, 2] [64, 128, 256] none 3 7
      (Or.inl (by decide)),
    C4_mismatch_config_error [2, 2] [64, 128] (some [64]) 3 7
      (Or.inr ⟨[64], rfl, by decide⟩)⟩

/-- C5: for every successfully built network and every input tensor of the
configured channel count with at least one spatial position, the forward
pass returns a tensor of shape `(batch, channel_widths[-1])`: the batch size
is preserved and the channel count is the last stage width, independent of
the input height and width (which the global average removes). -/
theorem C5_forward_shape (nbs chs : List Nat) (botts : Option (List Nat))
    (ic ks : Nat) (net : ResNetBase) (x : Tensor)
    (h : ResNetBase.init nbs chs botts ic ks = Except.ok net)
    (hc : x.channels = ic) (hH : 1 ≤ x.height) (hW : 1 ≤ x.width) :
    (net.forward x).batch = x.batch ∧
    (net.forward x).channels = chs.getLastD 0 := by
  obtain ⟨c0, chs0, nb0, nbs0, hcs, hn, hlen, hnet⟩ :=
    init_ok_blocks nbs chs botts ic ks net h
  subst hcs hn hnet
  constructor
  · show ((buildLoop (nb0 :: nbs0) (c0 :: chs0) botts c0 []).foldl
        (fun t b => Block.forward b t)
        (batchNorm c0 (conv2d ic c0 ks 2 (ks / 2) x))).batch = x.batch
    rw [foldl_forward_batch]
    rfl
  · show ((buildLoop (nb0 :: nbs0) (c0 :: chs0) botts c0 []).foldl
        (fun t b => Block.forward b t)
        (batchNorm c0 (conv2d ic c0 ks 2 (ks / 2) x))).channels
      = (c0 :: chs0).getLastD 0
    rw [buildLoop_top, List.foldl_cons, List.foldl_append,
      foldl_restLoop_channels nbs0 chs0 (Option.map List.tail botts) c0 _ hlen]
    have hmid :
        ((List.replicate (nb0 - 1) (mkStageRest botts c0)).foldl
          (fun t b => Block.forward b t)
          (Block.forward (mkStageFirst botts c0 c0 2)
            (batchNorm c0 (conv2d ic c0 ks 2 (ks / 2) x)))).channels = c0 := by
      refine foldl_forward_channels_const _ c0 _ ?_ ?_
      · rw [Block.forward_channels, outChannels_mkStageFirst]
      · intro b2 hb2
        rw [List.eq_of_mem_replicate hb2, outChannels_mkStageRest]
    rw [hmid, List.getLastD_cons]

/-- C5 witness: `ResNetBase([2, 2], [4, 8])` on a `(1, 3, 20, 17)` input. -/
theorem C5_forward_shape_witness :
    (sampleNet.forward sampleImage).batch = sampleImage.batch ∧
    (sampleNet.forward sampleImage).channels = ([4, 8] : List Nat).getLastD 0 :=
  C5_forward_shape [2, 2] [4, 8] none 3 7 sampleNet sampleImage rfl rfl
    (by decide) (by decide)

/-- C6: a block built with `in_channels = out_channels` and `stride = 1` has
the identity shortcut: the shortcut path returns the input tensor itself —
exact value equality, for both block variants. -/
theorem C6_identity_shortcut (inC botC outC s : Nat) (x : Tensor)
    (h1 : inC = outC) (h2 : s = 1) :
    (ResidualBlock.init inC outC s).shortcut.forward x = x ∧
    (BottleneckResidualBlock.init inC botC outC s).shortcut.forward x = x := by
  subst h1 h2
  constructor <;>
    simp [ResidualBlock.init, BottleneckResidualBlock.init, Shortcut.forward]

/-- C6 witness at a `4 → 4`, stride-1 block on a concrete tensor. -/
theorem C6_identity_shortcut_witness :
    (ResidualBlock.init 4 4 1).shortcut.forward sampleTensor = sampleTensor ∧
    (BottleneckResidualBlock.init 4 2 4 1).shortcut.forward sampleTensor
      = sampleTensor :=
  C6_identity_shortcut 4 2 4 1 sampleTensor rfl rfl

/-- C7: the bottleneck block's transformed path is exactly
conv(kernel 1, stride 1, in→bottleneck) → normalization → rectification →
conv(kernel 3, stride, pad 1, bottleneck→bottleneck) → normalization →
rectification → conv(kernel 1, stride 1, bottleneck→out) → normalization;
`forward` adds the shortcut and rectifies; consequently the output channel
count is `out_channels` (the declared stage width), not
`bottleneck_channels`. -/
theorem C7_bottleneck_pipeline (inC botC outC s : Nat) (x : Tensor) :
    ((BottleneckResidualBlock.init inC botC outC s).res x
      = batchNorm outC (conv2d botC outC 1 1 0
          (relu (batchNorm botC (conv2d botC botC 3 s 1
            (relu (batchNorm botC (conv2d inC botC 1 1 0 x)))))))) ∧
    ((BottleneckResidualBlock.init inC botC outC s).forward x
      = relu (Tensor.add ((BottleneckResidualBlock.init inC botC outC s).res x)
          ((BottleneckResidualBlock.init inC botC outC s).shortcut.forward x))) ∧
    ((BottleneckResidualBlock.init inC botC outC s).forward x).channels = outC ∧
    ((BottleneckResidualBlock.init inC botC outC s).forward x).batch = x.batch :=
  ⟨rfl, rfl, rfl, rfl⟩

/-- C8: the shortcut projection maps a tensor with spatial dimensions
`H × W` (both at least 1) to one with `out_channels` channels and spatial
dimensions `(floor((H-1)/stride)+1) × (floor((W-1)/stride)+1)`, by the
kernel-1 unpadded strided convolution followed by normalization. -/
theorem C8_projection_shape (inC outC s : Nat) (x : Tensor)
    (hH : 1 ≤ x.height) (hW : 1 ≤ x.width) :
    (ShortcutProjection.forward ⟨inC, outC, s⟩ x).shape
      = (x.batch, outC, (x.height - 1) / s + 1, (x.width - 1) / s + 1) := by
  show (x.batch, outC, convOutDim x.height 1 s 0, convOutDim x.width 1 s 0) = _
  rw [convOutDim_one x.height s hH, convOutDim_one x.width s hW]

/-- C8 witness: a `4 → 8`, stride-2 projection on the `(1, 4, 6, 5)`
tensor yields shape `(1, 8, 3, 3)`. -/
theorem C8_projection_shape_witness :
    (ShortcutProjection.forward ⟨4, 8, 2⟩ sampleTensor).shape = (1, 8, 3, 3) :=
  C8_projection_shape 4 8 2 sampleTensor (by decide) (by decide)

theorem buildLoop_top_length (nb0 : Nat) (nbs0 : List Nat) (c0 : Nat)
    (chs0 : List Nat) (botts : Option (List Nat)) (prev : Nat)
    (hlen : nbs0.length = chs0.length) :
    (buildLoop (nb0 :: nbs0) (c0 :: chs0) botts prev []).length
      = (List.map (fun n => max 1 n) (nb0 :: nbs0)).sum := by
  rw [buildLoop_top]
  simp only [List.length_cons, List.length_append, List.length_replicate]
  have h1 : (restLoop nbs0 chs0 (Option.map List.tail botts) c0).length
      = ((restLoop nbs0 chs0 (Option.map List.tail botts) c0).map
          (fun b => (b.inChannels, b.outChannels))).length :=
    (List.length_map _ _).symm
  rw [h1, restLoop_chanPairs, stageChannelPairs_length_max nbs0 chs0 c0 hlen]
  simp only [List.map_cons, List.sum_cons]
  omega

/-- C9: a zero entry in the block-count list still yields one block for that
stage — the stage's first block is built unconditionally and the loop over
`block_counts[i] - 1` extra blocks is empty — so every accepted
configuration produces `sum (max 1 block_counts[i])` blocks in total. -/
theorem C9_zero_count_stage (nbs chs : List Nat) (botts : Option (List Nat))
    (ic ks : Nat) (net : ResNetBase)
    (h : ResNetBase.init nbs chs botts ic ks = Except.ok net) :
    net.blocks.length = (nbs.map (fun n => max 1 n)).sum := by
  obtain ⟨c0, chs0, nb0, nbs0, hc, hn, hlen, hnet⟩ :=
    init_ok_blocks nbs chs botts ic ks net h
  subst hc hn hnet
  exact buildLoop_top_length nb0 nbs0 c0 chs0 botts c0 hlen

/-- C9 witness: `ResNetBase([0, 2], [4, 4])` still builds a block for the
zero-count stage: 3 blocks in total, not 2. -/
theorem C9_zero_count_stage_witness :
    (ResNetBase.init [0, 2] [4, 4] none 3 7 = Except.ok sampleNetZero) ∧
    sampleNetZero.blocks.length
      = (([0, 2] : List Nat).map (fun n => max 1 n)).sum :=
  ⟨rfl, C9_zero_count_stage [0, 2] [4, 4] none 3 7 sampleNetZero rfl⟩

/-- C10: blockwise projection flags of an assembled network: a
`ShortcutProjection` occurs exactly at the first block of the first stage
and at the first block of any later stage whose channel width differs from
the previous stage's; in particular a stage `i > 0` whose width equals the
previous stage's width contains no projection at all (its first block has
stride 1 and equal channel counts, hence the identity shortcut). -/
theorem C10_projection_locations (nbs chs : List Nat)
    (botts : Option (List Nat)) (ic ks : Nat) (net : ResNetBase)
    (h : ResNetBase.init nbs chs botts ic ks = Except.ok net) :
    net.blocks.map Block.usesProjection = projTagsSpec nbs chs := by
  obtain ⟨c0, chs0, nb0, nbs0, hc, hn, hlen, hnet⟩ :=
    init_ok_blocks nbs chs botts ic ks net h
  subst hc hn hnet
  show (buildLoop (nb0 :: nbs0) (c0 :: chs0) botts c0 []).map Block.usesProjection
      = projTagsSpec (nb0 :: nbs0) (c0 :: chs0)
  rw [buildLoop_top, projTagsSpec]
  simp only [List.map_cons, List.map_append, List.map_replicate,
    usesProjection_mkStageFirst_two, usesProjection_mkStageRest,
    restLoop_projTags, List.cons_append]

/-- C10 witness: `ResNetBase([1, 1], [4, 4])` — the second stage keeps the
width, so only the very first block carries a projection. -/
theorem C10_projection_locations_witness :
    (ResNetBase.init [1, 1] [4, 4] none 3 7 = Except.ok sampleNetEq) ∧
    sampleNetEq.blocks.map Block.usesProjection = projTagsSpec [1, 1] [4, 4] :=
  ⟨rfl, C10_projection_locations [1, 1] [4, 4] none 3 7 sampleNetEq rfl⟩
